import Mathlib

/-!
# Double pendulum simulator (`src/main.c`)

A shallow embedding of the numerical core of `main.c` and of its driving loop.

Modelling conventions.

* A C `double` is an element of a field `α`; the theorems take `α = ℝ`, so they speak about
  the exact real-number semantics of the formulas and not about IEEE rounding.  Division is the
  total division of the field (`x / 0 = 0`); the theorem on the denominators shows when the
  division is a genuine one.
* One quotient is not taken exactly: `T / STEP_LENGTH` of line 105 is turned into an `int`, so
  its rounding changes the number of steps.  It is computed by a parameter `fdiv`, the division
  of two `double`s as the machine performs it, about which nothing is assumed.
* An `int` has 32 bits.  The conversion `(int) x` of a value outside its range is undefined in
  C; the model takes the `int` the machine yields there from a parameter `overflow`.
* `sin` and `cos` of `math.h` are parameters of every definition, so that the definitions stay
  executable over any field; the theorems instantiate them with `Real.sin` and `Real.cos`.
* A `double[4]` array is a function `Fin 4 → α`, and the assignment `a[i] = v` is
  `Function.update a i v`.
* The local arrays of `solve_motion_equations` and the out-parameters are not initialised by the
  program.  Their contents on entry are explicit and arbitrary in the model.
-/

namespace Pendulum

/-! ## Constants (`main.c`, lines 5-10) -/

section Constants

variable {α : Type} [Field α]

/-- The macro `GRAVITY_ACCELERATION`. -/
def GRAVITY_ACCELERATION : α := 9.81

/-- The macro `PENDULUM_LENGTH_IN_METERS_1`. -/
def PENDULUM_LENGTH_IN_METERS_1 : α := 1.0

/-- The macro `PENDULUM_LENGTH_IN_METERS_2`. -/
def PENDULUM_LENGTH_IN_METERS_2 : α := 1.0

/-- The macro `PENDULUM_MASS_IN_KILOGRAMS_1`. -/
def PENDULUM_MASS_IN_KILOGRAMS_1 : α := 1.0

/-- The macro `PENDULUM_MASS_IN_KILOGRAMS_2`. -/
def PENDULUM_MASS_IN_KILOGRAMS_2 : α := 1.0

/-- The macro `STEP_LENGTH`. -/
def STEP_LENGTH : α := 0.05

end Constants

/-! ## Derivative model (`main.c`, lines 146-226) -/

section Derivative

variable {α : Type} [Field α]

/-- The expression assigned to the local `denominator` of
`calculate_next_angle_velocity_for_upper_pendulum_load` (line 165), as a function of the
variables it reads. -/
def upper_pendulum_load_denominator (m1 m2 l1 cos_delta : α) : α :=
  (m1 + m2) * l1 - m2 * l1 * cos_delta ^ 2

/-- The expression assigned to the local `denominator` of
`calculate_next_angle_velocity_for_lower_pendulum_load` (line 194), as a function of the
variables it reads. -/
def lower_pendulum_load_denominator (m1 m2 l2 cos_delta : α) : α :=
  (m1 + m2) * l2 - m2 * l2 * cos_delta ^ 2

/-- The function `calculate_next_angle_velocity_for_upper_pendulum_load` (lines 146-168). -/
def calculate_next_angle_velocity_for_upper_pendulum_load (sin cos : α → α)
    (m1 m2 l1 l2 omega1 omega2 theta1 theta2 : α) : α :=
  let delta := theta2 - theta1
  let sin_delta := sin delta
  let cos_delta := cos delta
  let numerator_part_1 := m2 * l1 * omega1 ^ 2 * sin_delta * cos_delta
  let numerator_part_2 := m2 * GRAVITY_ACCELERATION * sin theta2 * cos_delta
  let numerator_part_3 := m2 * l2 * omega2 ^ 2 * sin_delta
  let numerator_part_4 := (m1 + m2) * GRAVITY_ACCELERATION * sin theta1
  let denominator := upper_pendulum_load_denominator m1 m2 l1 cos_delta
  (numerator_part_1 + numerator_part_2 + numerator_part_3 - numerator_part_4) / denominator

/-- The function `calculate_next_angle_velocity_for_lower_pendulum_load` (lines 173-197).
The two `-=` statements on `numerator_part_2` are successive rebindings. -/
def calculate_next_angle_velocity_for_lower_pendulum_load (sin cos : α → α)
    (m1 m2 l1 l2 omega1 omega2 theta1 theta2 : α) : α :=
  let delta := theta2 - theta1
  let sin_delta := sin delta
  let cos_delta := cos delta
  let numerator_part_1 := -m2 * l2 * omega2 ^ 2 * sin_delta * cos_delta
  let numerator_part_2 := GRAVITY_ACCELERATION * sin theta1 * cos_delta
  let numerator_part_2 := numerator_part_2 - l1 * omega1 ^ 2 * sin_delta
  let numerator_part_2 := numerator_part_2 - GRAVITY_ACCELERATION * sin theta2
  let numerator_part_3 := (m1 + m2) * numerator_part_2
  let denominator := lower_pendulum_load_denominator m1 m2 l2 cos_delta
  (numerator_part_1 + numerator_part_3) / denominator

/-- The function `compose_motion_equations` (lines 202-226).  It reads
`current_pendulum_position` and writes the four cells of `next_pendulum_position` one after the
other; the value is the content of `next_pendulum_position` on return.  The two arrays are
distinct at every call site of the program. -/
def compose_motion_equations (sin cos : α → α)
    (current_pendulum_position next_pendulum_position : Fin 4 → α) : Fin 4 → α :=
  let next_pendulum_position := Function.update next_pendulum_position 0
    (current_pendulum_position 1)
  let next_pendulum_position := Function.update next_pendulum_position 1
    (calculate_next_angle_velocity_for_upper_pendulum_load sin cos
      PENDULUM_MASS_IN_KILOGRAMS_1
      PENDULUM_MASS_IN_KILOGRAMS_2
      PENDULUM_LENGTH_IN_METERS_1
      PENDULUM_LENGTH_IN_METERS_2
      (current_pendulum_position 1)
      (current_pendulum_position 3)
      (current_pendulum_position 0)
      (current_pendulum_position 2))
  let next_pendulum_position := Function.update next_pendulum_position 2
    (current_pendulum_position 3)
  let next_pendulum_position := Function.update next_pendulum_position 3
    (calculate_next_angle_velocity_for_lower_pendulum_load sin cos
      PENDULUM_MASS_IN_KILOGRAMS_1
      PENDULUM_MASS_IN_KILOGRAMS_2
      PENDULUM_LENGTH_IN_METERS_1
      PENDULUM_LENGTH_IN_METERS_2
      (current_pendulum_position 1)
      (current_pendulum_position 3)
      (current_pendulum_position 0)
      (current_pendulum_position 2))
  next_pendulum_position

end Derivative

/-! ## Runge-Kutta step (`main.c`, lines 231-264) -/

section Integrator

variable {α : Type} [Field α]

/-- The seven local arrays of `solve_motion_equations` (lines 232-239). -/
structure SolveLocals (α : Type) where
  dydx : Fin 4 → α
  dydxt : Fin 4 → α
  yt : Fin 4 → α
  F1 : Fin 4 → α
  F2 : Fin 4 → α
  F3 : Fin 4 → α
  F4 : Fin 4 → α

/-- The memory that `solve_motion_equations` can touch: the two arrays it receives and its
seven local arrays. -/
structure SolveMemory (α : Type) where
  current_pendulum_position : Fin 4 → α
  next_pendulum_position : Fin 4 → α
  dydx : Fin 4 → α
  dydxt : Fin 4 → α
  yt : Fin 4 → α
  F1 : Fin 4 → α
  F2 : Fin 4 → α
  F3 : Fin 4 → α
  F4 : Fin 4 → α

/-- The memory on entry of `solve_motion_equations`: the two argument arrays and the contents
the fresh, uninitialised local arrays happen to have. -/
def SolveMemory.enter (current_pendulum_position next_pendulum_position : Fin 4 → α)
    (locals : SolveLocals α) : SolveMemory α :=
  { current_pendulum_position := current_pendulum_position
    next_pendulum_position := next_pendulum_position
    dydx := locals.dydx
    dydxt := locals.dydxt
    yt := locals.yt
    F1 := locals.F1
    F2 := locals.F2
    F3 := locals.F3
    F4 := locals.F4 }

/-- The loop `for (int i = 0; i < 4; i++) body`, run on a state `s`. -/
def for_i_lt_4 {σ : Type} (body : Fin 4 → σ → σ) (s : σ) : σ :=
  body 3 (body 2 (body 1 (body 0 s)))

/-- The body of `solve_motion_equations` (lines 241-263) with the macro `STEP_LENGTH` replaced
by the variable `h`; every statement is a memory update. -/
def solve_motion_equations_with (sin cos : α → α) (h : α) (m : SolveMemory α) : SolveMemory α :=
  -- compose_motion_equations(current_pendulum_position, dydx);
  let m := { m with dydx := compose_motion_equations sin cos m.current_pendulum_position m.dydx }
  let m := for_i_lt_4 (fun i m =>
    -- F1[i] = STEP_LENGTH * dydx[i];
    let m := { m with F1 := Function.update m.F1 i (h * m.dydx i) }
    -- yt[i] = current_pendulum_position[i] + 0.5 * F1[i];
    { m with yt := Function.update m.yt i (m.current_pendulum_position i + 0.5 * m.F1 i) }) m
  -- compose_motion_equations(yt, dydxt);
  let m := { m with dydxt := compose_motion_equations sin cos m.yt m.dydxt }
  let m := for_i_lt_4 (fun i m =>
    -- F2[i] = STEP_LENGTH * dydxt[i];
    let m := { m with F2 := Function.update m.F2 i (h * m.dydxt i) }
    -- yt[i] = current_pendulum_position[i] + 0.5 * F2[i];
    { m with yt := Function.update m.yt i (m.current_pendulum_position i + 0.5 * m.F2 i) }) m
  -- compose_motion_equations(yt, dydxt);
  let m := { m with dydxt := compose_motion_equations sin cos m.yt m.dydxt }
  let m := for_i_lt_4 (fun i m =>
    -- F3[i] = STEP_LENGTH * dydxt[i];
    let m := { m with F3 := Function.update m.F3 i (h * m.dydxt i) }
    -- yt[i] = current_pendulum_position[i] + F3[i];
    { m with yt := Function.update m.yt i (m.current_pendulum_position i + m.F3 i) }) m
  -- compose_motion_equations(yt, dydxt);
  let m := { m with dydxt := compose_motion_equations sin cos m.yt m.dydxt }
  for_i_lt_4 (fun i m =>
    -- F4[i] = STEP_LENGTH * dydxt[i];
    let m := { m with F4 := Function.update m.F4 i (h * m.dydxt i) }
    -- next_pendulum_position[i] = current_pendulum_position[i] + (F1[i] + 2 * F2[i] + 2 * F3[i] + F4[i]) / 6;
    { m with next_pendulum_position := (Function.update m.next_pendulum_position i
        (m.current_pendulum_position i + (m.F1 i + 2 * m.F2 i + 2 * m.F3 i + m.F4 i) / 6)) }) m

/-- The function `solve_motion_equations` (lines 231-264): the memory on return, as a function
of the memory on entry. -/
def solve_motion_equations (sin cos : α → α) (m : SolveMemory α) : SolveMemory α :=
  solve_motion_equations_with sin cos STEP_LENGTH m

/-- The state that the call `solve_motion_equations(y, next)` leaves in the array `next`, when the
local arrays of the callee hold `locals` on entry. -/
def solve_motion_equations_result (sin cos : α → α) (locals : SolveLocals α)
    (next y : Fin 4 → α) : Fin 4 → α :=
  (solve_motion_equations sin cos (SolveMemory.enter y next locals)).next_pendulum_position

/-- The classical Runge-Kutta step of the specification (section 4.2), written from its words:
`k1 = h·f(y)`, `k2 = h·f(y + k1/2)`, `k3 = h·f(y + k2/2)`, `k4 = h·f(y + k3)` and
`y_next = y + (k1 + 2·k2 + 2·k3 + k4) / 6`, every operation elementwise. -/
def spec_rk4_step (h : α) (f : (Fin 4 → α) → Fin 4 → α) (y : Fin 4 → α) : Fin 4 → α :=
  let k1 : Fin 4 → α := fun i => h * f y i
  let k2 : Fin 4 → α := fun i => h * f (fun j => y j + k1 j / 2) i
  let k3 : Fin 4 → α := fun i => h * f (fun j => y j + k2 j / 2) i
  let k4 : Fin 4 → α := fun i => h * f (fun j => y j + k3 j) i
  fun i => y i + (k1 i + 2 * k2 i + 2 * k3 i + k4 i) / 6

end Integrator

/-! ## Driving loop (`main.c`, lines 91-141) -/

section Driver

variable {α : Type} [Field α]

/-- The four coordinates computed from `next_pendulum_position` in the loop of `main`
(lines 126-130), in the order `(x1, y1, x2, y2)` in which they are printed. -/
def trajectory_point (sin cos : α → α) (next_pendulum_position : Fin 4 → α) : α × α × α × α :=
  let x1 := PENDULUM_LENGTH_IN_METERS_1 * sin (next_pendulum_position 0)
  let y1 := -PENDULUM_LENGTH_IN_METERS_1 * cos (next_pendulum_position 0)
  let x2 := x1 + PENDULUM_LENGTH_IN_METERS_2 * sin (next_pendulum_position 2)
  let y2 := y1 - PENDULUM_LENGTH_IN_METERS_2 * cos (next_pendulum_position 2)
  (x1, y1, x2, y2)

/-- What a `printf` of `main` writes: the arity message with its `%d` argument (line 93), or
one line of four coordinates (line 132).  Number formatting is not modelled. -/
inductive OutputLine (α : Type) where
  | arity_message (argc : Int) : OutputLine α
  | point (p : α × α × α × α) : OutputLine α

/-- The variables of `main` that its loop reads or writes, and the lines printed so far. -/
structure MainState (α : Type) where
  current_pendulum_position : Fin 4 → α
  next_pendulum_position : Fin 4 → α
  stdout : List (OutputLine α)

/-- One pass through the body of the loop of `main` (lines 124-137).  The argument `locals` is
the content of the callee's uninitialised local arrays at this call. -/
def main_loop_body (sin cos : α → α) (locals : SolveLocals α) (s : MainState α) : MainState α :=
  -- solve_motion_equations(current_pendulum_position, next_pendulum_position);
  let next_pendulum_position := (solve_motion_equations sin cos
    (SolveMemory.enter s.current_pendulum_position s.next_pendulum_position
      locals)).next_pendulum_position
  let s := { s with next_pendulum_position := next_pendulum_position }
  -- printf("%lf,%lf,%lf,%lf\n", x1, y1, x2, y2);
  let s := { s with
    stdout := s.stdout ++ [OutputLine.point (trajectory_point sin cos s.next_pendulum_position)] }
  -- current_pendulum_position[0] = next_pendulum_position[0];
  let s := { s with current_pendulum_position := (Function.update
    s.current_pendulum_position 0 (s.next_pendulum_position 0)) }
  -- current_pendulum_position[1] = next_pendulum_position[1];
  let s := { s with current_pendulum_position := (Function.update
    s.current_pendulum_position 1 (s.next_pendulum_position 1)) }
  -- current_pendulum_position[2] = next_pendulum_position[2];
  let s := { s with current_pendulum_position := (Function.update
    s.current_pendulum_position 2 (s.next_pendulum_position 2)) }
  -- current_pendulum_position[3] = next_pendulum_position[3];
  let s := { s with current_pendulum_position := (Function.update
    s.current_pendulum_position 3 (s.next_pendulum_position 3)) }
  s

/-- The loop `for (int i = 0; i < steps_number; i++)` of `main` (lines 123-138), from the value
`i` of its counter on.  `stack i` is the content of the local arrays of
`solve_motion_equations` at the call made with counter `i`. -/
def main_loop (sin cos : α → α) (stack : Int → SolveLocals α) (steps_number : Int) (i : Int)
    (s : MainState α) : MainState α :=
  if i < steps_number then
    main_loop sin cos stack steps_number (i + 1) (main_loop_body sin cos (stack i) s)
  else
    s
termination_by (steps_number - i).toNat
decreasing_by omega

end Driver

section Main

variable {α : Type} [LinearOrderedField α] [FloorRing α]

/-- The conversion `(int) x` of a `double` to a 32-bit `int` (line 105).  When the value
truncated towards zero is representable, that is when `-2^31 - 1 < x < 2^31`, it is the
result.  Otherwise the conversion is undefined in C, and the result is the `int` that the
machine yields, `overflow x`. -/
def double_to_int (overflow : α → Int) (x : α) : Int :=
  if -(2 : α) ^ 31 - 1 < x ∧ x < (2 : α) ^ 31 then
    if 0 ≤ x then Int.floor x else Int.ceil x
  else
    overflow x

/-- The value that `main` gives to `steps_number` (line 105):
`(int) (pendulum_oscillation_time_in_seconds / STEP_LENGTH)`, the quotient being the one that
the division of `double`s, `fdiv`, computes. -/
def steps_number (fdiv : α → α → α) (overflow : α → Int)
    (pendulum_oscillation_time_in_seconds : α) : Int :=
  double_to_int overflow (fdiv pendulum_oscillation_time_in_seconds STEP_LENGTH)

/-- The function `main` (lines 91-141).  The five numbers that `strtod` reads from `argv[1..5]`
are the arguments `T TH1 TH2 W1 W2`, `pi` is `M_PI`, and `next0` is the content of the
uninitialised array `next_pendulum_position`.  The value is the status code and the lines
printed. -/
def main (sin cos : α → α) (fdiv : α → α → α) (overflow : α → Int) (pi : α)
    (stack : Int → SolveLocals α) (next0 : Fin 4 → α)
    (argc : Int) (T TH1 TH2 W1 W2 : α) : Int × List (OutputLine α) :=
  if 5 ≠ argc - 1 then
    (1, [OutputLine.arity_message argc])
  else
    let steps_number := steps_number fdiv overflow T
    let pendulum_load_angle_in_radians_1 := TH1 * pi / 180.0
    let pendulum_load_angle_in_radians_2 := TH2 * pi / 180.0
    let pendulum_load_angle_velocity_in_radians_1 := W1 * pi / 180.0
    let pendulum_load_angle_velocity_in_radians_2 := W2 * pi / 180.0
    let current_pendulum_position : Fin 4 → α :=
      ![pendulum_load_angle_in_radians_1,
        pendulum_load_angle_velocity_in_radians_1,
        pendulum_load_angle_in_radians_2,
        pendulum_load_angle_velocity_in_radians_2]
    let s := main_loop sin cos stack steps_number 0
      { current_pendulum_position := current_pendulum_position
        next_pendulum_position := next0
        stdout := [] }
    (0, s.stdout)

end Main

/-! ## The acceleration formulas -/

section AccelerationTheorems

/-- C1: for all real arguments, with `delta = theta2 - theta1` and `g = 9.81`,
`calculate_next_angle_velocity_for_upper_pendulum_load` returns
`[m2*l1*omega1^2*sin(delta)*cos(delta) + m2*g*sin(theta2)*cos(delta) + m2*l2*omega2^2*sin(delta)
- (m1+m2)*g*sin(theta1)] / [(m1+m2)*l1 - m2*l1*cos(delta)^2]`. -/
theorem upper_pendulum_load_formula (m1 m2 l1 l2 omega1 omega2 theta1 theta2 : ℝ) :
    calculate_next_angle_velocity_for_upper_pendulum_load Real.sin Real.cos
        m1 m2 l1 l2 omega1 omega2 theta1 theta2
      = (m2 * l1 * omega1 ^ 2 * Real.sin (theta2 - theta1) * Real.cos (theta2 - theta1)
          + m2 * 9.81 * Real.sin theta2 * Real.cos (theta2 - theta1)
          + m2 * l2 * omega2 ^ 2 * Real.sin (theta2 - theta1)
          - (m1 + m2) * 9.81 * Real.sin theta1)
        / ((m1 + m2) * l1 - m2 * l1 * Real.cos (theta2 - theta1) ^ 2) := by
  simp only [calculate_next_angle_velocity_for_upper_pendulum_load,
    upper_pendulum_load_denominator, GRAVITY_ACCELERATION]

/-- C2: for all real arguments, with `delta = theta2 - theta1` and `g = 9.81`,
`calculate_next_angle_velocity_for_lower_pendulum_load` returns
`[-m2*l2*omega2^2*sin(delta)*cos(delta) + (m1+m2)*(g*sin(theta1)*cos(delta)
- l1*omega1^2*sin(delta) - g*sin(theta2))] / [(m1+m2)*l2 - m2*l2*cos(delta)^2]`. -/
theorem lower_pendulum_load_formula (m1 m2 l1 l2 omega1 omega2 theta1 theta2 : ℝ) :
    calculate_next_angle_velocity_for_lower_pendulum_load Real.sin Real.cos
        m1 m2 l1 l2 omega1 omega2 theta1 theta2
      = (-(m2 * l2 * omega2 ^ 2 * Real.sin (theta2 - theta1) * Real.cos (theta2 - theta1))
          + (m1 + m2) * (9.81 * Real.sin theta1 * Real.cos (theta2 - theta1)
              - l1 * omega1 ^ 2 * Real.sin (theta2 - theta1)
              - 9.81 * Real.sin theta2))
        / ((m1 + m2) * l2 - m2 * l2 * Real.cos (theta2 - theta1) ^ 2) := by
  simp only [calculate_next_angle_velocity_for_lower_pendulum_load,
    lower_pendulum_load_denominator, GRAVITY_ACCELERATION]
  norm_num

/-- The denominator of the upper acceleration is positive for positive masses and length. -/
theorem upper_pendulum_load_denominator_pos (m1 m2 l1 delta : ℝ)
    (hm1 : 0 < m1) (hm2 : 0 < m2) (hl1 : 0 < l1) :
    0 < upper_pendulum_load_denominator m1 m2 l1 (Real.cos delta) := by
  have hc : Real.cos delta ^ 2 ≤ 1 := Real.cos_sq_le_one delta
  have h : upper_pendulum_load_denominator m1 m2 l1 (Real.cos delta)
      = l1 * (m1 + m2 * (1 - Real.cos delta ^ 2)) := by
    unfold upper_pendulum_load_denominator
    ring
  rw [h]
  have h2 : 0 ≤ m2 * (1 - Real.cos delta ^ 2) := mul_nonneg hm2.le (by linarith)
  exact mul_pos hl1 (by linarith)

/-- The denominator of the lower acceleration is positive for positive masses and length. -/
theorem lower_pendulum_load_denominator_pos (m1 m2 l2 delta : ℝ)
    (hm1 : 0 < m1) (hm2 : 0 < m2) (hl2 : 0 < l2) :
    0 < lower_pendulum_load_denominator m1 m2 l2 (Real.cos delta) := by
  have hc : Real.cos delta ^ 2 ≤ 1 := Real.cos_sq_le_one delta
  have h : lower_pendulum_load_denominator m1 m2 l2 (Real.cos delta)
      = l2 * (m1 + m2 * (1 - Real.cos delta ^ 2)) := by
    unfold lower_pendulum_load_denominator
    ring
  rw [h]
  have h2 : 0 ≤ m2 * (1 - Real.cos delta ^ 2) := mul_nonneg hm2.le (by linarith)
  exact mul_pos hl2 (by linarith)

/-- C6: for strictly positive `m1 m2 l1 l2` and all real `theta1 theta2`, the denominators
`(m1+m2)*l1 - m2*l1*cos(delta)^2` and `(m1+m2)*l2 - m2*l2*cos(delta)^2` that the two
acceleration functions divide by, at `delta = theta2 - theta1`, are strictly positive, hence
non-zero. -/
theorem pendulum_load_denominators_pos (m1 m2 l1 l2 theta1 theta2 : ℝ)
    (hm1 : 0 < m1) (hm2 : 0 < m2) (hl1 : 0 < l1) (hl2 : 0 < l2) :
    (0 < upper_pendulum_load_denominator m1 m2 l1 (Real.cos (theta2 - theta1))
      ∧ upper_pendulum_load_denominator m1 m2 l1 (Real.cos (theta2 - theta1)) ≠ 0)
    ∧ (0 < lower_pendulum_load_denominator m1 m2 l2 (Real.cos (theta2 - theta1))
      ∧ lower_pendulum_load_denominator m1 m2 l2 (Real.cos (theta2 - theta1)) ≠ 0) :=
  ⟨⟨upper_pendulum_load_denominator_pos m1 m2 l1 _ hm1 hm2 hl1,
      (upper_pendulum_load_denominator_pos m1 m2 l1 _ hm1 hm2 hl1).ne.symm⟩,
    ⟨lower_pendulum_load_denominator_pos m1 m2 l2 _ hm1 hm2 hl2,
      (lower_pendulum_load_denominator_pos m1 m2 l2 _ hm1 hm2 hl2).ne.symm⟩⟩

/-- Witness of C6 at unit masses and lengths and both angles zero. -/
theorem pendulum_load_denominators_pos_witness :
    (0 < upper_pendulum_load_denominator (1 : ℝ) 1 1 (Real.cos (0 - 0))
      ∧ upper_pendulum_load_denominator (1 : ℝ) 1 1 (Real.cos (0 - 0)) ≠ 0)
    ∧ (0 < lower_pendulum_load_denominator (1 : ℝ) 1 1 (Real.cos (0 - 0))
      ∧ lower_pendulum_load_denominator (1 : ℝ) 1 1 (Real.cos (0 - 0)) ≠ 0) :=
  pendulum_load_denominators_pos 1 1 1 1 0 0 one_pos one_pos one_pos one_pos

/-- C7: for strictly positive `m1 m2 l1 l2` and all real angles and velocities, the values
`a1`, `a2` of the upper and the lower acceleration function solve the two coupled Lagrangian
equations of the double pendulum with `g = 9.81`:
`(m1+m2)*l1*a1 + m2*l2*a2*cos(theta1-theta2) + m2*l2*omega2^2*sin(theta1-theta2)
+ (m1+m2)*g*sin(theta1) = 0` and
`m2*l2*a2 + m2*l1*a1*cos(theta1-theta2) - m2*l1*omega1^2*sin(theta1-theta2)
+ m2*g*sin(theta2) = 0`. -/
theorem accelerations_solve_lagrange_equations
    (m1 m2 l1 l2 omega1 omega2 theta1 theta2 : ℝ)
    (hm1 : 0 < m1) (hm2 : 0 < m2) (hl1 : 0 < l1) (hl2 : 0 < l2) :
    (m1 + m2) * l1
          * calculate_next_angle_velocity_for_upper_pendulum_load Real.sin Real.cos
              m1 m2 l1 l2 omega1 omega2 theta1 theta2
        + m2 * l2
          * calculate_next_angle_velocity_for_lower_pendulum_load Real.sin Real.cos
              m1 m2 l1 l2 omega1 omega2 theta1 theta2
          * Real.cos (theta1 - theta2)
        + m2 * l2 * omega2 ^ 2 * Real.sin (theta1 - theta2)
        + (m1 + m2) * 9.81 * Real.sin theta1 = 0
    ∧ m2 * l2
          * calculate_next_angle_velocity_for_lower_pendulum_load Real.sin Real.cos
              m1 m2 l1 l2 omega1 omega2 theta1 theta2
        + m2 * l1
          * calculate_next_angle_velocity_for_upper_pendulum_load Real.sin Real.cos
              m1 m2 l1 l2 omega1 omega2 theta1 theta2
          * Real.cos (theta1 - theta2)
        - m2 * l1 * omega1 ^ 2 * Real.sin (theta1 - theta2)
        + m2 * 9.81 * Real.sin theta2 = 0 := by
  have hu := (upper_pendulum_load_denominator_pos m1 m2 l1 (theta2 - theta1) hm1 hm2 hl1).ne.symm
  have hl := (lower_pendulum_load_denominator_pos m1 m2 l2 (theta2 - theta1) hm1 hm2 hl2).ne.symm
  have hc : Real.cos (theta1 - theta2) = Real.cos (theta2 - theta1) := by
    rw [← Real.cos_neg, neg_sub]
  have hs : Real.sin (theta1 - theta2) = -Real.sin (theta2 - theta1) := by
    rw [← Real.sin_neg, neg_sub]
  rw [hc, hs]
  simp only [calculate_next_angle_velocity_for_upper_pendulum_load,
    calculate_next_angle_velocity_for_lower_pendulum_load, GRAVITY_ACCELERATION]
  unfold upper_pendulum_load_denominator lower_pendulum_load_denominator at *
  constructor
  · field_simp
    ring
  · field_simp
    ring

/-- Witness of C7 at unit masses and lengths, angles `0` and `1`, velocities `1` and `2`. -/
theorem accelerations_solve_lagrange_equations_witness :
    ((1 : ℝ) + 1) * 1
          * calculate_next_angle_velocity_for_upper_pendulum_load Real.sin Real.cos
              1 1 1 1 1 2 0 1
        + 1 * 1
          * calculate_next_angle_velocity_for_lower_pendulum_load Real.sin Real.cos
              1 1 1 1 1 2 0 1
          * Real.cos (0 - 1)
        + 1 * 1 * 2 ^ 2 * Real.sin (0 - 1)
        + (1 + 1) * 9.81 * Real.sin 0 = 0
    ∧ (1 : ℝ) * 1
          * calculate_next_angle_velocity_for_lower_pendulum_load Real.sin Real.cos
              1 1 1 1 1 2 0 1
        + 1 * 1
          * calculate_next_angle_velocity_for_upper_pendulum_load Real.sin Real.cos
              1 1 1 1 1 2 0 1
          * Real.cos (0 - 1)
        - 1 * 1 * 1 ^ 2 * Real.sin (0 - 1)
        + 1 * 9.81 * Real.sin 1 = 0 :=
  accelerations_solve_lagrange_equations 1 1 1 1 1 2 0 1 one_pos one_pos one_pos one_pos

end AccelerationTheorems

/-! ## The derivative vector -/

section DerivativeTheorems

/-- The array that `compose_motion_equations` leaves in `next_pendulum_position`, cell by cell;
it does not depend on what the array held before. -/
theorem compose_motion_equations_eq {α : Type} [Field α] (sin cos : α → α)
    (y next : Fin 4 → α) :
    compose_motion_equations sin cos y next
      = ![y 1,
          calculate_next_angle_velocity_for_upper_pendulum_load sin cos
            PENDULUM_MASS_IN_KILOGRAMS_1 PENDULUM_MASS_IN_KILOGRAMS_2
            PENDULUM_LENGTH_IN_METERS_1 PENDULUM_LENGTH_IN_METERS_2 (y 1) (y 3) (y 0) (y 2),
          y 3,
          calculate_next_angle_velocity_for_lower_pendulum_load sin cos
            PENDULUM_MASS_IN_KILOGRAMS_1 PENDULUM_MASS_IN_KILOGRAMS_2
            PENDULUM_LENGTH_IN_METERS_1 PENDULUM_LENGTH_IN_METERS_2 (y 1) (y 3) (y 0) (y 2)] := by
  funext i
  fin_cases i <;> simp [compose_motion_equations, Function.update]

/-- C3: for every state `y = (theta1, omega1, theta2, omega2)`, `compose_motion_equations`
writes `(omega1, a1, omega2, a2)`, where `a1` and `a2` are the upper and the lower acceleration
at `m1 = m2 = 1`, `l1 = l2 = 1` and arguments `omega1 = y[1]`, `omega2 = y[3]`,
`theta1 = y[0]`, `theta2 = y[2]`; all four cells of the output array are overwritten. -/
theorem compose_motion_equations_writes_derivative (y next : Fin 4 → ℝ) :
    compose_motion_equations Real.sin Real.cos y next
      = ![y 1,
          calculate_next_angle_velocity_for_upper_pendulum_load Real.sin Real.cos
            1 1 1 1 (y 1) (y 3) (y 0) (y 2),
          y 3,
          calculate_next_angle_velocity_for_lower_pendulum_load Real.sin Real.cos
            1 1 1 1 (y 1) (y 3) (y 0) (y 2)] := by
  rw [compose_motion_equations_eq]
  simp only [PENDULUM_MASS_IN_KILOGRAMS_1, PENDULUM_MASS_IN_KILOGRAMS_2,
    PENDULUM_LENGTH_IN_METERS_1, PENDULUM_LENGTH_IN_METERS_2]
  norm_num

/-- Both accelerations vanish when the two angles and the two velocities are zero. -/
theorem accelerations_at_rest (m1 m2 l1 l2 : ℝ) :
    calculate_next_angle_velocity_for_upper_pendulum_load Real.sin Real.cos
        m1 m2 l1 l2 0 0 0 0 = 0
    ∧ calculate_next_angle_velocity_for_lower_pendulum_load Real.sin Real.cos
        m1 m2 l1 l2 0 0 0 0 = 0 := by
  simp [calculate_next_angle_velocity_for_upper_pendulum_load,
    calculate_next_angle_velocity_for_lower_pendulum_load]

/-- Every cell that `compose_motion_equations` writes from the rest state is zero. -/
theorem compose_motion_equations_rest_apply (next : Fin 4 → ℝ) (i : Fin 4) :
    compose_motion_equations Real.sin Real.cos ![0, 0, 0, 0] next i = 0 := by
  rw [compose_motion_equations_eq]
  fin_cases i <;> simp [(accelerations_at_rest _ _ _ _).1, (accelerations_at_rest _ _ _ _).2]

/-- C8: at the rest state `theta1 = theta2 = 0`, `omega1 = omega2 = 0`,
`compose_motion_equations` returns exactly `(0, 0, 0, 0)`. -/
theorem compose_motion_equations_rest (next : Fin 4 → ℝ) :
    compose_motion_equations Real.sin Real.cos ![0, 0, 0, 0] next = ![0, 0, 0, 0] := by
  funext i
  rw [compose_motion_equations_rest_apply next i]
  fin_cases i <;> rfl

end DerivativeTheorems

/-! ## The Runge-Kutta step -/

section IntegratorTheorems

/-- Multiplying by the literal `0.5` is halving. -/
theorem half_mul_eq_div_two (x : ℝ) : (0.5 : ℝ) * x = x / 2 := by
  norm_num
  ring

/-- With any step length `h`, the array that the body of `solve_motion_equations` leaves in
`next_pendulum_position` is the classical Runge-Kutta step of the vector field
`compose_motion_equations`, whatever the local arrays and the output array held on entry. -/
theorem solve_motion_equations_with_next (h : ℝ) (m : SolveMemory ℝ) (u : Fin 4 → ℝ) :
    (solve_motion_equations_with Real.sin Real.cos h m).next_pendulum_position
      = spec_rk4_step h (fun y => compose_motion_equations Real.sin Real.cos y u)
          m.current_pendulum_position := by
  funext i
  simp only [solve_motion_equations_with, for_i_lt_4, spec_rk4_step,
    compose_motion_equations_eq, half_mul_eq_div_two]
  fin_cases i <;> simp [Function.update]

/-- C4: for every state `y`, `solve_motion_equations` returns the classical Runge-Kutta step
with `h = 0.05` and `f = compose_motion_equations`: with `k1 = h*f(y)`, `k2 = h*f(y + k1/2)`,
`k3 = h*f(y + k2/2)`, `k4 = h*f(y + k3)` the result is `y + (k1 + 2*k2 + 2*k3 + k4)/6`,
elementwise over the four components.  Here `m` is any memory on entry (its field
`current_pendulum_position` is `y`) and `u` any content of the array `f` writes to. -/
theorem solve_motion_equations_refines_rk4 (m : SolveMemory ℝ) (u : Fin 4 → ℝ) :
    (solve_motion_equations Real.sin Real.cos m).next_pendulum_position
      = spec_rk4_step 0.05 (fun y => compose_motion_equations Real.sin Real.cos y u)
          m.current_pendulum_position := by
  unfold solve_motion_equations
  rw [solve_motion_equations_with_next STEP_LENGTH m u]
  rfl

/-- The result of a call of `solve_motion_equations` is the Runge-Kutta step of the state; it
depends neither on the local arrays nor on the output array on entry. -/
theorem solve_motion_equations_result_eq (locals : SolveLocals ℝ) (next u y : Fin 4 → ℝ) :
    solve_motion_equations_result Real.sin Real.cos locals next y
      = spec_rk4_step STEP_LENGTH
          (fun y => compose_motion_equations Real.sin Real.cos y u) y := by
  unfold solve_motion_equations_result solve_motion_equations
  rw [solve_motion_equations_with_next STEP_LENGTH _ u]
  rfl

/-- The Runge-Kutta step of the specification fixes the rest state, for every step length. -/
theorem spec_rk4_step_rest (h : ℝ) (u : Fin 4 → ℝ) :
    spec_rk4_step h (fun y => compose_motion_equations Real.sin Real.cos y u) ![0, 0, 0, 0]
      = ![0, 0, 0, 0] := by
  have hf : ∀ i : Fin 4, compose_motion_equations Real.sin Real.cos ![0, 0, 0, 0] u i = 0 :=
    compose_motion_equations_rest_apply u
  funext i
  simp only [spec_rk4_step, hf, mul_zero, zero_div, add_zero]

/-- C9: from the rest state `y0 = (0, 0, 0, 0)`, `solve_motion_equations` returns `y0`
unchanged, with the step length `0.05` of the program and with any step length `h` taken as a
parameter, whatever the output array and the local arrays hold on entry. -/
theorem solve_motion_equations_rest (next : Fin 4 → ℝ) (locals : SolveLocals ℝ) :
    (solve_motion_equations Real.sin Real.cos
        (SolveMemory.enter ![0, 0, 0, 0] next locals)).next_pendulum_position = ![0, 0, 0, 0]
    ∧ ∀ h : ℝ, (solve_motion_equations_with Real.sin Real.cos h
        (SolveMemory.enter ![0, 0, 0, 0] next locals)).next_pendulum_position
          = ![0, 0, 0, 0] := by
  have key : ∀ h : ℝ, (solve_motion_equations_with Real.sin Real.cos h
      (SolveMemory.enter ![0, 0, 0, 0] next locals)).next_pendulum_position
        = ![0, 0, 0, 0] := by
    intro h
    rw [solve_motion_equations_with_next h _ next]
    exact spec_rk4_step_rest h next
  exact ⟨key STEP_LENGTH, key⟩

end IntegratorTheorems

/-! ## The driving loop -/

section DriverTheorems

/-- C10: for every state `(theta1, omega1, theta2, omega2)`, the trajectory point
`(x1, y1, x2, y2)` computed from it satisfies `sqrt(x1^2 + y1^2) = l1` and
`sqrt((x2 - x1)^2 + (y2 - y1)^2) = l2`, with `l1 = l2 = 1` the lengths of the program. -/
theorem trajectory_point_rod_lengths (y : Fin 4 → ℝ) :
    Real.sqrt ((trajectory_point Real.sin Real.cos y).1 ^ 2
        + (trajectory_point Real.sin Real.cos y).2.1 ^ 2) = PENDULUM_LENGTH_IN_METERS_1
    ∧ Real.sqrt
        (((trajectory_point Real.sin Real.cos y).2.2.1
            - (trajectory_point Real.sin Real.cos y).1) ^ 2
          + ((trajectory_point Real.sin Real.cos y).2.2.2
            - (trajectory_point Real.sin Real.cos y).2.1) ^ 2) = PENDULUM_LENGTH_IN_METERS_2
    ∧ (PENDULUM_LENGTH_IN_METERS_1 : ℝ) = 1 ∧ (PENDULUM_LENGTH_IN_METERS_2 : ℝ) = 1 := by
  have h1 : (PENDULUM_LENGTH_IN_METERS_1 : ℝ) = 1 := by
    unfold PENDULUM_LENGTH_IN_METERS_1
    norm_num
  have h2 : (PENDULUM_LENGTH_IN_METERS_2 : ℝ) = 1 := by
    unfold PENDULUM_LENGTH_IN_METERS_2
    norm_num
  have e1 : (1 * Real.sin (y 0)) ^ 2 + (-1 * Real.cos (y 0)) ^ 2 = 1 := by
    have := Real.sin_sq_add_cos_sq (y 0)
    linear_combination this
  have e2 : (1 * Real.sin (y 0) + 1 * Real.sin (y 2) - 1 * Real.sin (y 0)) ^ 2
      + (-1 * Real.cos (y 0) - 1 * Real.cos (y 2) - -1 * Real.cos (y 0)) ^ 2 = 1 := by
    have := Real.sin_sq_add_cos_sq (y 2)
    linear_combination this
  simp only [trajectory_point, h1, h2]
  rw [e1, e2]
  simp

/-- One pass through the loop body of `main`: the next state is the result of
`solve_motion_equations`, its trajectory point is appended to the output, and the next state
is copied into the current one. -/
theorem main_loop_body_eq (locals : SolveLocals ℝ) (s : MainState ℝ) (u v : Fin 4 → ℝ) :
    main_loop_body Real.sin Real.cos locals s
      = { current_pendulum_position :=
            solve_motion_equations_result Real.sin Real.cos locals u s.current_pendulum_position
          next_pendulum_position :=
            solve_motion_equations_result Real.sin Real.cos locals v s.current_pendulum_position
          stdout := s.stdout ++ [OutputLine.point (trajectory_point Real.sin Real.cos
            (solve_motion_equations_result Real.sin Real.cos locals u
              s.current_pendulum_position))] } := by
  have hu := solve_motion_equations_result_eq locals u u s.current_pendulum_position
  have hv := solve_motion_equations_result_eq locals v u s.current_pendulum_position
  have hn := solve_motion_equations_result_eq locals s.next_pendulum_position u
    s.current_pendulum_position
  rw [hu, hv]
  unfold solve_motion_equations_result at hn
  simp only [main_loop_body, hn]
  congr 1
  funext i
  fin_cases i <;> simp [Function.update]

/-- The loop of `main` from counter `i` on: it appends one trajectory point per remaining
pass, the `k`-th of them computed from the `k`-fold iterate of the step on the current
state, and it leaves the last iterate in the current state. -/
theorem main_loop_eq (stack : Int → SolveLocals ℝ) (steps_number : Int)
    (locals : SolveLocals ℝ) (next : Fin 4 → ℝ) :
    ∀ (n : ℕ) (i : Int) (s : MainState ℝ), (steps_number - i).toNat = n →
      (main_loop Real.sin Real.cos stack steps_number i s).stdout
          = s.stdout ++ (List.range n).map (fun k => OutputLine.point
              (trajectory_point Real.sin Real.cos
                ((solve_motion_equations_result Real.sin Real.cos locals next)^[k + 1]
                  s.current_pendulum_position)))
        ∧ (main_loop Real.sin Real.cos stack steps_number i s).current_pendulum_position
          = (solve_motion_equations_result Real.sin Real.cos locals next)^[n]
              s.current_pendulum_position := by
  have hstep : ∀ (l : SolveLocals ℝ) (y : Fin 4 → ℝ),
      solve_motion_equations_result Real.sin Real.cos l next y
        = solve_motion_equations_result Real.sin Real.cos locals next y := by
    intro l y
    rw [solve_motion_equations_result_eq l next next y,
      solve_motion_equations_result_eq locals next next y]
  intro n
  induction n with
  | zero =>
    intro i s hn
    have hi : ¬ i < steps_number := by omega
    rw [main_loop, if_neg hi]
    simp
  | succ n ih =>
    intro i s hn
    have hi : i < steps_number := by omega
    have hn1 : (steps_number - (i + 1)).toNat = n := by omega
    rw [main_loop, if_pos hi]
    obtain ⟨h1, h2⟩ := ih (i + 1) (main_loop_body Real.sin Real.cos (stack i) s) hn1
    rw [h1, h2, main_loop_body_eq (stack i) s next next]
    simp only [hstep (stack i)]
    constructor
    · rw [List.range_succ_eq_map, List.map_cons, List.map_map, List.append_assoc]
      rfl
    · rfl

/-- C5: for every initial state `y0` and step count `N`, the loop of `main` prints exactly
`max(N, 0)` trajectory points, and for `1 <= k <= N` the `k`-th of them is
`(l1*sin(theta1), -l1*cos(theta1), x1 + l2*sin(theta2), y1 - l2*cos(theta2))` for the state
`(theta1, omega1, theta2, omega2)` that `k` successive calls of `solve_motion_equations`
produce from `y0`; the point of `y0` itself is not printed. -/
theorem main_loop_trajectory (stack : Int → SolveLocals ℝ) (N : Int) (y0 next0 : Fin 4 → ℝ)
    (locals : SolveLocals ℝ) (next : Fin 4 → ℝ) :
    (((main_loop Real.sin Real.cos stack N 0
        { current_pendulum_position := y0, next_pendulum_position := next0,
          stdout := [] }).stdout.length : Int) = max N 0)
    ∧ ∀ k : ℕ, 1 ≤ k → (k : Int) ≤ N →
        (main_loop Real.sin Real.cos stack N 0
          { current_pendulum_position := y0, next_pendulum_position := next0,
            stdout := [] }).stdout[k - 1]?
          = some (OutputLine.point
              (PENDULUM_LENGTH_IN_METERS_1 * Real.sin
                  (((solve_motion_equations_result Real.sin Real.cos locals next)^[k] y0) 0),
                -PENDULUM_LENGTH_IN_METERS_1 * Real.cos
                  (((solve_motion_equations_result Real.sin Real.cos locals next)^[k] y0) 0),
                PENDULUM_LENGTH_IN_METERS_1 * Real.sin
                  (((solve_motion_equations_result Real.sin Real.cos locals next)^[k] y0) 0)
                  + PENDULUM_LENGTH_IN_METERS_2 * Real.sin
                  (((solve_motion_equations_result Real.sin Real.cos locals next)^[k] y0) 2),
                -PENDULUM_LENGTH_IN_METERS_1 * Real.cos
                  (((solve_motion_equations_result Real.sin Real.cos locals next)^[k] y0) 0)
                  - PENDULUM_LENGTH_IN_METERS_2 * Real.cos
                  (((solve_motion_equations_result Real.sin Real.cos locals next)^[k] y0) 2))) := by
  obtain ⟨h1, -⟩ := main_loop_eq stack N locals next (N - 0).toNat 0
    { current_pendulum_position := y0, next_pendulum_position := next0, stdout := [] } rfl
  rw [h1]
  constructor
  · simp [Int.toNat_eq_max]
  · intro k hk1 hkN
    have hlt : k - 1 < (N - 0).toNat := by omega
    have hk : k - 1 + 1 = k := by omega
    simp only [List.nil_append, List.getElem?_map, List.getElem?_range hlt, Option.map_some',
      hk]
    rfl

/-- Witness of C5: two steps from the state `(1, 0, 2, 0)`, the second point printed. -/
theorem main_loop_trajectory_witness :
    (1 ≤ 2 ∧ ((2 : ℕ) : Int) ≤ 2)
    ∧ (((main_loop Real.sin Real.cos (fun _ => ⟨0, 0, 0, 0, 0, 0, 0⟩) 2 0
        { current_pendulum_position := ![1, 0, 2, 0], next_pendulum_position := 0,
          stdout := [] }).stdout.length : Int) = max 2 0)
    ∧ (main_loop Real.sin Real.cos (fun _ => ⟨0, 0, 0, 0, 0, 0, 0⟩) 2 0
          { current_pendulum_position := ![1, 0, 2, 0], next_pendulum_position := 0,
            stdout := [] }).stdout[2 - 1]?
        = some (OutputLine.point
            (PENDULUM_LENGTH_IN_METERS_1 * Real.sin
                (((solve_motion_equations_result Real.sin Real.cos ⟨0, 0, 0, 0, 0, 0, 0⟩ 0)^[2]
                  ![1, 0, 2, 0]) 0),
              -PENDULUM_LENGTH_IN_METERS_1 * Real.cos
                (((solve_motion_equations_result Real.sin Real.cos ⟨0, 0, 0, 0, 0, 0, 0⟩ 0)^[2]
                  ![1, 0, 2, 0]) 0),
              PENDULUM_LENGTH_IN_METERS_1 * Real.sin
                (((solve_motion_equations_result Real.sin Real.cos ⟨0, 0, 0, 0, 0, 0, 0⟩ 0)^[2]
                  ![1, 0, 2, 0]) 0)
                + PENDULUM_LENGTH_IN_METERS_2 * Real.sin
                (((solve_motion_equations_result Real.sin Real.cos ⟨0, 0, 0, 0, 0, 0, 0⟩ 0)^[2]
                  ![1, 0, 2, 0]) 2),
              -PENDULUM_LENGTH_IN_METERS_1 * Real.cos
                (((solve_motion_equations_result Real.sin Real.cos ⟨0, 0, 0, 0, 0, 0, 0⟩ 0)^[2]
                  ![1, 0, 2, 0]) 0)
                - PENDULUM_LENGTH_IN_METERS_2 * Real.cos
                (((solve_motion_equations_result Real.sin Real.cos ⟨0, 0, 0, 0, 0, 0, 0⟩ 0)^[2]
                  ![1, 0, 2, 0]) 2))) :=
  ⟨⟨by decide, by decide⟩,
    (main_loop_trajectory (fun _ => ⟨0, 0, 0, 0, 0, 0, 0⟩) 2 ![1, 0, 2, 0] 0
      ⟨0, 0, 0, 0, 0, 0, 0⟩ 0).1,
    (main_loop_trajectory (fun _ => ⟨0, 0, 0, 0, 0, 0, 0⟩) 2 ![1, 0, 2, 0] 0
      ⟨0, 0, 0, 0, 0, 0, 0⟩ 0).2 2 (by decide) (by decide)⟩

end DriverTheorems

/-! ## The step count and the empty run -/

section StepCountTheorems

/-- The quotient of the duration `-0.01` by the step length is `-0.2`. -/
theorem negative_duration_quotient :
    (-0.01 : ℝ) / STEP_LENGTH = -(1 / 5) ∧ (-0.01 : ℝ) / 0.05 = -(1 / 5) := by
  unfold STEP_LENGTH
  constructor <;> norm_num

/-- The cast `(int)` of a quotient strictly between `-1` and `0` is `0`. -/
theorem double_to_int_of_small_negative (overflow : ℝ → Int) (q : ℝ) (h1 : -1 < q)
    (h2 : q < 0) : double_to_int overflow q = 0 := by
  have hr : -(2 : ℝ) ^ 31 - 1 < q ∧ q < (2 : ℝ) ^ 31 := by
    constructor <;> norm_num <;> linarith
  unfold double_to_int
  rw [if_pos hr, if_neg (not_le.mpr h2), Int.ceil_eq_iff]
  constructor
  · simpa using h1
  · simpa using h2.le

/-- Counterexample to C11 as stated: for the duration `T = -0.01` the quotient is `-0.2`, the
cast `(int)` gives the step count `0`, and `floor(T / 0.05)` is `-1`. -/
theorem steps_number_ne_floor_of_negative_duration :
    steps_number (fun a b => a / b) (fun _ => 0) (-0.01 : ℝ) = 0
    ∧ ⌊(-0.01 : ℝ) / 0.05⌋ = -1
    ∧ steps_number (fun a b => a / b) (fun _ => 0) (-0.01 : ℝ) ≠ ⌊(-0.01 : ℝ) / 0.05⌋ := by
  have h1 : steps_number (fun a b => a / b) (fun _ => 0) (-0.01 : ℝ) = 0 := by
    show double_to_int (fun _ => 0) ((-0.01 : ℝ) / STEP_LENGTH) = 0
    rw [negative_duration_quotient.1]
    exact double_to_int_of_small_negative _ _ (by norm_num) (by norm_num)
  have h2 : ⌊(-0.01 : ℝ) / 0.05⌋ = -1 := by
    rw [negative_duration_quotient.2, Int.floor_eq_iff]
    norm_num
  refine ⟨h1, h2, ?_⟩
  rw [h1, h2]
  decide

/-- C11, amended: for every duration `T` whose quotient `q = T / STEP_LENGTH`, as the division
of doubles computes it, satisfies `0 ≤ q < 2^31`, the step count `(int) q` that `main` derives
equals `floor(q)`: the cast drops the fractional part of the computed quotient and does not
round it. -/
theorem steps_number_eq_floor_of_quotient (fdiv : ℝ → ℝ → ℝ) (overflow : ℝ → Int) (T : ℝ)
    (h0 : 0 ≤ fdiv T STEP_LENGTH) (h1 : fdiv T STEP_LENGTH < 2 ^ 31) :
    steps_number fdiv overflow T = ⌊fdiv T STEP_LENGTH⌋ := by
  have hr : -(2 : ℝ) ^ 31 - 1 < fdiv T STEP_LENGTH ∧ fdiv T STEP_LENGTH < (2 : ℝ) ^ 31 := by
    refine ⟨?_, h1⟩
    have : -(2 : ℝ) ^ 31 - 1 < 0 := by norm_num
    linarith
  unfold steps_number double_to_int
  rw [if_pos hr, if_pos h0]

/-- Witness of the amended C11 at `T = 0.12` with the exact quotient `2.4`. -/
theorem steps_number_eq_floor_of_quotient_witness :
    ((0 : ℝ) ≤ (fun a b : ℝ => a / b) 0.12 STEP_LENGTH
      ∧ (fun a b : ℝ => a / b) 0.12 STEP_LENGTH < 2 ^ 31)
    ∧ steps_number (fun a b : ℝ => a / b) (fun _ => 0) 0.12
      = ⌊(fun a b : ℝ => a / b) 0.12 STEP_LENGTH⌋ :=
  ⟨⟨by unfold STEP_LENGTH; norm_num, by unfold STEP_LENGTH; norm_num⟩,
    steps_number_eq_floor_of_quotient (fun a b => a / b) (fun _ => 0) 0.12
      (by unfold STEP_LENGTH; norm_num) (by unfold STEP_LENGTH; norm_num)⟩

/-- C12: for every initial state `y0`, the loop of `main` run with step count `0` prints
nothing and leaves the state equal to `y0`, zero applications of the step are the identity,
and `main` itself, given the duration `0` (whose quotient by the step length is `0` for the
division of doubles), ends with status `0` and an empty output. -/
theorem main_loop_zero_steps (stack : Int → SolveLocals ℝ) (y0 next0 : Fin 4 → ℝ)
    (locals : SolveLocals ℝ) (next : Fin 4 → ℝ) (pi TH1 TH2 W1 W2 : ℝ) :
    (main_loop Real.sin Real.cos stack 0 0
        { current_pendulum_position := y0, next_pendulum_position := next0,
          stdout := [] }).stdout = []
    ∧ (main_loop Real.sin Real.cos stack 0 0
        { current_pendulum_position := y0, next_pendulum_position := next0,
          stdout := [] }).current_pendulum_position = y0
    ∧ (solve_motion_equations_result Real.sin Real.cos locals next)^[0] y0 = y0
    ∧ ∀ (fdiv : ℝ → ℝ → ℝ) (overflow : ℝ → Int), fdiv 0 STEP_LENGTH = 0 →
        main Real.sin Real.cos fdiv overflow pi stack next0 6 0 TH1 TH2 W1 W2 = (0, []) := by
  have h0 : ∀ s : MainState ℝ, main_loop Real.sin Real.cos stack 0 0 s = s := by
    intro s
    rw [main_loop, if_neg (lt_irrefl 0)]
  refine ⟨by rw [h0], by rw [h0], rfl, ?_⟩
  intro fdiv overflow hdiv
  have hs : steps_number fdiv overflow 0 = 0 := by
    unfold steps_number double_to_int
    rw [hdiv]
    norm_num
  unfold main
  rw [if_neg (by decide)]
  simp only [hs, h0]

/-- Witness of C12: the exact division gives the quotient `0` for the duration `0`, and `main`
then prints nothing. -/
theorem main_loop_zero_steps_witness :
    (fun a b : ℝ => a / b) 0 STEP_LENGTH = 0
    ∧ main Real.sin Real.cos (fun a b => a / b) (fun _ => 0) Real.pi
        (fun _ => ⟨0, 0, 0, 0, 0, 0, 0⟩) 0 6 0 30 30 0 0 = (0, []) :=
  ⟨by norm_num,
    (main_loop_zero_steps (fun _ => ⟨0, 0, 0, 0, 0, 0, 0⟩) 0 0 ⟨0, 0, 0, 0, 0, 0, 0⟩ 0
      Real.pi 30 30 0 0).2.2.2 (fun a b => a / b) (fun _ => 0) (by norm_num)⟩

end StepCountTheorems

/-! ## Frame of the Runge-Kutta step -/

section FrameTheorems

/-- The body of `solve_motion_equations` never writes to `current_pendulum_position`. -/
theorem solve_motion_equations_with_current {α : Type} [Field α] (sin cos : α → α) (h : α)
    (m : SolveMemory α) :
    (solve_motion_equations_with sin cos h m).current_pendulum_position
      = m.current_pendulum_position := rfl

/-- C13: `solve_motion_equations` has no side effect on its input: with distinct input and
output arrays, the four cells of `current_pendulum_position` are unchanged by the call, and
the four cells of `next_pendulum_position` are overwritten with values that depend only on
`current_pendulum_position`, not on what the output array or the local arrays held. -/
theorem solve_motion_equations_frame (current next next' : Fin 4 → ℝ)
    (locals locals' : SolveLocals ℝ) :
    (solve_motion_equations Real.sin Real.cos
        (SolveMemory.enter current next locals)).current_pendulum_position = current
    ∧ (solve_motion_equations Real.sin Real.cos
        (SolveMemory.enter current next locals)).next_pendulum_position
      = (solve_motion_equations Real.sin Real.cos
        (SolveMemory.enter current next' locals')).next_pendulum_position := by
  constructor
  · exact solve_motion_equations_with_current Real.sin Real.cos STEP_LENGTH _
  · unfold solve_motion_equations
    rw [solve_motion_equations_with_next STEP_LENGTH _ next,
      solve_motion_equations_with_next STEP_LENGTH _ next]
    rfl

end FrameTheorems

/-! ## Configuration, determinism and decoupling -/

section ConfigurationTheorems

/-- Counterexample to C14 as stated: called with the negative mass `m1 = -3` (and `m2 = 1`,
unit lengths, zero velocities, both angles `π/2`), the upper acceleration function reports no
error and returns the number `-9.81`. -/
theorem upper_pendulum_load_accepts_negative_mass :
    (-3 : ℝ) ≤ 0
    ∧ calculate_next_angle_velocity_for_upper_pendulum_load Real.sin Real.cos
        (-3) 1 1 1 0 0 (Real.pi / 2) (Real.pi / 2) = -9.81 := by
  refine ⟨by norm_num, ?_⟩
  simp only [calculate_next_angle_velocity_for_upper_pendulum_load,
    upper_pendulum_load_denominator, GRAVITY_ACCELERATION, sub_self, Real.sin_zero,
    Real.cos_zero, Real.sin_pi_div_two]
  norm_num

/-- C14, amended: the code validates nothing and has no error to report; the configuration it
computes with is fixed and valid.  The masses, the lengths, the step length and the gravity are
the constants `1.0`, `1.0`, `1.0`, `1.0`, `0.05` and `9.81`, all strictly positive, and for
every state `compose_motion_equations` evaluates the two accelerations at these masses and
lengths, that is as the stated quotients with the common denominator `2 - cos(delta)^2`,
`delta = theta2 - theta1`, which lies between `1` and `2`: the program never divides by
zero. -/
theorem program_configuration_valid (y next : Fin 4 → ℝ) :
    ((0 : ℝ) < PENDULUM_MASS_IN_KILOGRAMS_1 ∧ (0 : ℝ) < PENDULUM_MASS_IN_KILOGRAMS_2
      ∧ (0 : ℝ) < PENDULUM_LENGTH_IN_METERS_1 ∧ (0 : ℝ) < PENDULUM_LENGTH_IN_METERS_2
      ∧ (0 : ℝ) < STEP_LENGTH ∧ (0 : ℝ) < GRAVITY_ACCELERATION)
    ∧ compose_motion_equations Real.sin Real.cos y next 1
        = (y 1 ^ 2 * Real.sin (y 2 - y 0) * Real.cos (y 2 - y 0)
            + 9.81 * Real.sin (y 2) * Real.cos (y 2 - y 0)
            + y 3 ^ 2 * Real.sin (y 2 - y 0)
            - 2 * 9.81 * Real.sin (y 0))
          / (2 - Real.cos (y 2 - y 0) ^ 2)
    ∧ compose_motion_equations Real.sin Real.cos y next 3
        = (-(y 3 ^ 2 * Real.sin (y 2 - y 0) * Real.cos (y 2 - y 0))
            + 2 * (9.81 * Real.sin (y 0) * Real.cos (y 2 - y 0)
                - y 1 ^ 2 * Real.sin (y 2 - y 0)
                - 9.81 * Real.sin (y 2)))
          / (2 - Real.cos (y 2 - y 0) ^ 2)
    ∧ 1 ≤ 2 - Real.cos (y 2 - y 0) ^ 2 ∧ 2 - Real.cos (y 2 - y 0) ^ 2 ≤ 2 := by
  have hc : Real.cos (y 2 - y 0) ^ 2 ≤ 1 := Real.cos_sq_le_one _
  have hc0 : 0 ≤ Real.cos (y 2 - y 0) ^ 2 := sq_nonneg _
  refine ⟨?_, ?_, ?_, by linarith, by linarith⟩
  · simp only [PENDULUM_MASS_IN_KILOGRAMS_1, PENDULUM_MASS_IN_KILOGRAMS_2,
      PENDULUM_LENGTH_IN_METERS_1, PENDULUM_LENGTH_IN_METERS_2, STEP_LENGTH,
      GRAVITY_ACCELERATION]
    norm_num
  · rw [compose_motion_equations_eq]
    simp only [Matrix.cons_val_one, Matrix.head_cons,
      calculate_next_angle_velocity_for_upper_pendulum_load, upper_pendulum_load_denominator,
      PENDULUM_MASS_IN_KILOGRAMS_1, PENDULUM_MASS_IN_KILOGRAMS_2,
      PENDULUM_LENGTH_IN_METERS_1, PENDULUM_LENGTH_IN_METERS_2, GRAVITY_ACCELERATION]
    norm_num
  · rw [compose_motion_equations_eq]
    have h3 : ∀ a b c d : ℝ, (![a, b, c, d] : Fin 4 → ℝ) 3 = d := fun _ _ _ _ => rfl
    simp only [h3,
      calculate_next_angle_velocity_for_lower_pendulum_load, lower_pendulum_load_denominator,
      PENDULUM_MASS_IN_KILOGRAMS_1, PENDULUM_MASS_IN_KILOGRAMS_2,
      PENDULUM_LENGTH_IN_METERS_1, PENDULUM_LENGTH_IN_METERS_2, GRAVITY_ACCELERATION]
    norm_num

/-- C15: the run is deterministic: for every initial state `y0` and step count `N`, two
executions of the loop of `main` print the same lines, whatever the uninitialised arrays (the
output array of `main` and the local arrays of each call) hold in either execution. -/
theorem main_loop_deterministic (stack stack' : Int → SolveLocals ℝ) (N : Int)
    (y0 next0 next0' : Fin 4 → ℝ) :
    (main_loop Real.sin Real.cos stack N 0
        { current_pendulum_position := y0, next_pendulum_position := next0,
          stdout := [] }).stdout
      = (main_loop Real.sin Real.cos stack' N 0
        { current_pendulum_position := y0, next_pendulum_position := next0',
          stdout := [] }).stdout := by
  rw [(main_loop_eq stack N (stack 0) next0 (N - 0).toNat 0 _ rfl).1,
    (main_loop_eq stack' N (stack 0) next0 (N - 0).toNat 0 _ rfl).1]

/-- C16: decoupling of the lower arm: for `m2 = 0`, every `m1 > 0` and `l1 > 0` and all real
`l2`, angles and velocities, the upper acceleration function returns `-g*sin(theta1)/l1` with
`g = 9.81`, independently of `theta2`, `omega2`, `omega1` and `l2`. -/
theorem upper_pendulum_load_decoupled (m1 l1 l2 omega1 omega2 theta1 theta2 : ℝ)
    (hm1 : 0 < m1) (hl1 : 0 < l1) :
    calculate_next_angle_velocity_for_upper_pendulum_load Real.sin Real.cos
        m1 0 l1 l2 omega1 omega2 theta1 theta2
      = -9.81 * Real.sin theta1 / l1 := by
  have h1 : m1 ≠ 0 := hm1.ne.symm
  have h2 : l1 ≠ 0 := hl1.ne.symm
  simp only [calculate_next_angle_velocity_for_upper_pendulum_load,
    upper_pendulum_load_denominator, GRAVITY_ACCELERATION]
  field_simp
  ring

/-- Witness of C16 at `m1 = 2`, `l1 = 3`. -/
theorem upper_pendulum_load_decoupled_witness :
    ((0 : ℝ) < 2 ∧ (0 : ℝ) < 3)
    ∧ calculate_next_angle_velocity_for_upper_pendulum_load Real.sin Real.cos
        2 0 3 5 1 4 1 2
      = -9.81 * Real.sin 1 / 3 :=
  ⟨⟨by norm_num, by norm_num⟩,
    upper_pendulum_load_decoupled 2 3 5 1 4 1 2 (by norm_num) (by norm_num)⟩

end ConfigurationTheorems

/-! ## Symmetries of the step -/

section SymmetryTheorems

/-- The upper acceleration is an odd function of the angles and velocities taken together. -/
theorem upper_pendulum_load_neg (m1 m2 l1 l2 omega1 omega2 theta1 theta2 : ℝ) :
    calculate_next_angle_velocity_for_upper_pendulum_load Real.sin Real.cos
        m1 m2 l1 l2 (-omega1) (-omega2) (-theta1) (-theta2)
      = -calculate_next_angle_velocity_for_upper_pendulum_load Real.sin Real.cos
        m1 m2 l1 l2 omega1 omega2 theta1 theta2 := by
  have hd : -theta2 - -theta1 = -(theta2 - theta1) := by ring
  simp only [calculate_next_angle_velocity_for_upper_pendulum_load, hd, Real.sin_neg,
    Real.cos_neg]
  ring

/-- The lower acceleration is an odd function of the angles and velocities taken together. -/
theorem lower_pendulum_load_neg (m1 m2 l1 l2 omega1 omega2 theta1 theta2 : ℝ) :
    calculate_next_angle_velocity_for_lower_pendulum_load Real.sin Real.cos
        m1 m2 l1 l2 (-omega1) (-omega2) (-theta1) (-theta2)
      = -calculate_next_angle_velocity_for_lower_pendulum_load Real.sin Real.cos
        m1 m2 l1 l2 omega1 omega2 theta1 theta2 := by
  have hd : -theta2 - -theta1 = -(theta2 - theta1) := by ring
  simp only [calculate_next_angle_velocity_for_lower_pendulum_load, hd, Real.sin_neg,
    Real.cos_neg]
  ring

/-- The vector field `compose_motion_equations` is odd. -/
theorem compose_motion_equations_neg (y u v : Fin 4 → ℝ) :
    compose_motion_equations Real.sin Real.cos (-y) u
      = -compose_motion_equations Real.sin Real.cos y v := by
  rw [compose_motion_equations_eq, compose_motion_equations_eq]
  funext i
  fin_cases i <;> simp [upper_pendulum_load_neg, lower_pendulum_load_neg]

/-- The Runge-Kutta step of an odd vector field is odd. -/
theorem spec_rk4_step_neg (h : ℝ) (f : (Fin 4 → ℝ) → Fin 4 → ℝ)
    (hf : ∀ y, f (-y) = -f y) (y : Fin 4 → ℝ) :
    spec_rk4_step h f (-y) = -spec_rk4_step h f y := by
  have half : ∀ a : Fin 4 → ℝ, (fun j => (-y) j + h * (-a) j / 2)
      = -(fun j => y j + h * a j / 2) := by
    intro a
    funext j
    simp only [Pi.neg_apply]
    ring
  have full : ∀ a : Fin 4 → ℝ, (fun j => (-y) j + h * (-a) j)
      = -(fun j => y j + h * a j) := by
    intro a
    funext j
    simp only [Pi.neg_apply]
    ring
  funext i
  simp only [spec_rk4_step, hf, half, full]
  simp only [Pi.neg_apply]
  ring

/-- C17: mirror symmetry: for every state `y`,
`compose_motion_equations(-y) = -compose_motion_equations(y)` and therefore
`solve_motion_equations(-y) = -solve_motion_equations(y)`, where `-y` negates the two angles
and the two angular velocities. -/
theorem mirror_symmetry (y next next' : Fin 4 → ℝ) (locals locals' : SolveLocals ℝ) :
    compose_motion_equations Real.sin Real.cos (fun i => -y i) next
      = (fun i => -compose_motion_equations Real.sin Real.cos y next' i)
    ∧ solve_motion_equations_result Real.sin Real.cos locals next (fun i => -y i)
      = (fun i => -solve_motion_equations_result Real.sin Real.cos locals' next' y i) := by
  constructor
  · exact compose_motion_equations_neg y next next'
  · rw [solve_motion_equations_result_eq locals next next,
      solve_motion_equations_result_eq locals' next' next]
    exact spec_rk4_step_neg STEP_LENGTH _
      (fun z => compose_motion_equations_neg z next next) y

/-- Full turns of the two angles, as a vector to add to a state. -/
theorem full_turns_apply (j k : Int) :
    (![2 * Real.pi * j, 0, 2 * Real.pi * k, 0] : Fin 4 → ℝ) 0 = j * (2 * Real.pi)
    ∧ (![2 * Real.pi * j, 0, 2 * Real.pi * k, 0] : Fin 4 → ℝ) 1 = 0
    ∧ (![2 * Real.pi * j, 0, 2 * Real.pi * k, 0] : Fin 4 → ℝ) 2 = k * (2 * Real.pi)
    ∧ (![2 * Real.pi * j, 0, 2 * Real.pi * k, 0] : Fin 4 → ℝ) 3 = 0 := by
  refine ⟨?_, rfl, ?_, rfl⟩
  · simp only [Matrix.cons_val_zero]
    ring
  · simp only [Matrix.cons_val_two, Matrix.tail_cons, Matrix.head_cons]
    ring

/-- The upper acceleration does not change when full turns are added to the angles. -/
theorem upper_pendulum_load_full_turns (m1 m2 l1 l2 omega1 omega2 theta1 theta2 : ℝ)
    (j k : Int) :
    calculate_next_angle_velocity_for_upper_pendulum_load Real.sin Real.cos
        m1 m2 l1 l2 omega1 omega2 (theta1 + j * (2 * Real.pi)) (theta2 + k * (2 * Real.pi))
      = calculate_next_angle_velocity_for_upper_pendulum_load Real.sin Real.cos
        m1 m2 l1 l2 omega1 omega2 theta1 theta2 := by
  have hd : theta2 + k * (2 * Real.pi) - (theta1 + j * (2 * Real.pi))
      = theta2 - theta1 + ((k - j : Int) : ℝ) * (2 * Real.pi) := by
    push_cast
    ring
  simp only [calculate_next_angle_velocity_for_upper_pendulum_load, hd,
    Real.sin_add_int_mul_two_pi, Real.cos_add_int_mul_two_pi]

/-- The lower acceleration does not change when full turns are added to the angles. -/
theorem lower_pendulum_load_full_turns (m1 m2 l1 l2 omega1 omega2 theta1 theta2 : ℝ)
    (j k : Int) :
    calculate_next_angle_velocity_for_lower_pendulum_load Real.sin Real.cos
        m1 m2 l1 l2 omega1 omega2 (theta1 + j * (2 * Real.pi)) (theta2 + k * (2 * Real.pi))
      = calculate_next_angle_velocity_for_lower_pendulum_load Real.sin Real.cos
        m1 m2 l1 l2 omega1 omega2 theta1 theta2 := by
  have hd : theta2 + k * (2 * Real.pi) - (theta1 + j * (2 * Real.pi))
      = theta2 - theta1 + ((k - j : Int) : ℝ) * (2 * Real.pi) := by
    push_cast
    ring
  simp only [calculate_next_angle_velocity_for_lower_pendulum_load, hd,
    Real.sin_add_int_mul_two_pi, Real.cos_add_int_mul_two_pi]

/-- The vector field `compose_motion_equations` does not change when full turns are added to
the two angles of the state. -/
theorem compose_motion_equations_full_turns (j k : Int) (y u v : Fin 4 → ℝ) :
    compose_motion_equations Real.sin Real.cos
        (y + ![2 * Real.pi * j, 0, 2 * Real.pi * k, 0]) u
      = compose_motion_equations Real.sin Real.cos y v := by
  obtain ⟨h0, h1, h2, h3⟩ := full_turns_apply j k
  rw [compose_motion_equations_eq, compose_motion_equations_eq]
  simp only [Pi.add_apply, h0, h1, h2, h3, add_zero, upper_pendulum_load_full_turns,
    lower_pendulum_load_full_turns]

/-- The Runge-Kutta step of a vector field that is invariant under a translation `s` commutes
with that translation. -/
theorem spec_rk4_step_translate (h : ℝ) (f : (Fin 4 → ℝ) → Fin 4 → ℝ) (s : Fin 4 → ℝ)
    (hf : ∀ y, f (y + s) = f y) (y : Fin 4 → ℝ) :
    spec_rk4_step h f (y + s) = spec_rk4_step h f y + s := by
  have half : ∀ a : Fin 4 → ℝ, (fun j => (y + s) j + h * a j / 2)
      = (fun j => y j + h * a j / 2) + s := by
    intro a
    funext j
    simp only [Pi.add_apply]
    ring
  have full : ∀ a : Fin 4 → ℝ, (fun j => (y + s) j + h * a j)
      = (fun j => y j + h * a j) + s := by
    intro a
    funext j
    simp only [Pi.add_apply]
    ring
  funext i
  simp only [spec_rk4_step, hf, half, full]
  simp only [Pi.add_apply]
  ring

/-- Adding the vector of full turns to a state, cell by cell. -/
theorem add_full_turns_eq (j k : Int) (y : Fin 4 → ℝ) :
    (![y 0 + 2 * Real.pi * j, y 1, y 2 + 2 * Real.pi * k, y 3] : Fin 4 → ℝ)
      = y + ![2 * Real.pi * j, 0, 2 * Real.pi * k, 0] := by
  funext i
  fin_cases i <;> simp

/-- The trajectory point does not change when full turns are added to the two angles. -/
theorem trajectory_point_full_turns (j k : Int) (y : Fin 4 → ℝ) :
    trajectory_point Real.sin Real.cos (y + ![2 * Real.pi * j, 0, 2 * Real.pi * k, 0])
      = trajectory_point Real.sin Real.cos y := by
  obtain ⟨h0, -, h2, -⟩ := full_turns_apply j k
  simp only [trajectory_point, Pi.add_apply, h0, h2, Real.sin_add_int_mul_two_pi,
    Real.cos_add_int_mul_two_pi]

/-- C18: angles are carried unwrapped and the step is equivariant under full turns: for every
state `y` and all integers `j`, `k`, the result of `solve_motion_equations` on
`(theta1 + 2*pi*j, omega1, theta2 + 2*pi*k, omega2)` is its result on `y` with `2*pi*j` added
to the first component and `2*pi*k` to the third, without reduction into `[0, 2*pi)`, and the
trajectory point printed is the same for both. -/
theorem full_turn_equivariance (j k : Int) (y next next' : Fin 4 → ℝ)
    (locals locals' : SolveLocals ℝ) :
    solve_motion_equations_result Real.sin Real.cos locals next
        ![y 0 + 2 * Real.pi * j, y 1, y 2 + 2 * Real.pi * k, y 3]
      = ![solve_motion_equations_result Real.sin Real.cos locals' next' y 0
            + 2 * Real.pi * j,
          solve_motion_equations_result Real.sin Real.cos locals' next' y 1,
          solve_motion_equations_result Real.sin Real.cos locals' next' y 2
            + 2 * Real.pi * k,
          solve_motion_equations_result Real.sin Real.cos locals' next' y 3]
    ∧ trajectory_point Real.sin Real.cos
        (solve_motion_equations_result Real.sin Real.cos locals next
          ![y 0 + 2 * Real.pi * j, y 1, y 2 + 2 * Real.pi * k, y 3])
      = trajectory_point Real.sin Real.cos
        (solve_motion_equations_result Real.sin Real.cos locals' next' y) := by
  have key : solve_motion_equations_result Real.sin Real.cos locals next
      ![y 0 + 2 * Real.pi * j, y 1, y 2 + 2 * Real.pi * k, y 3]
        = solve_motion_equations_result Real.sin Real.cos locals' next' y
          + ![2 * Real.pi * j, 0, 2 * Real.pi * k, 0] := by
    rw [add_full_turns_eq, solve_motion_equations_result_eq locals next next,
      solve_motion_equations_result_eq locals' next' next]
    exact spec_rk4_step_translate STEP_LENGTH _ _
      (fun z => compose_motion_equations_full_turns j k z next next) y
  constructor
  · rw [key, ← add_full_turns_eq]
  · rw [key, trajectory_point_full_turns]

end SymmetryTheorems

/-! ## Reach of the lower bob and the status of `main` -/

section ReachTheorems

/-- C19: reach bound: for every state, the trajectory point `(x1, y1, x2, y2)` satisfies
`x2^2 + y2^2 <= (l1 + l2)^2`, which is `4` for the lengths of the program, and `|x1| <= l1`,
`|y1| <= l1`. -/
theorem trajectory_point_reach (y : Fin 4 → ℝ) :
    (trajectory_point Real.sin Real.cos y).2.2.1 ^ 2
        + (trajectory_point Real.sin Real.cos y).2.2.2 ^ 2
      ≤ (PENDULUM_LENGTH_IN_METERS_1 + PENDULUM_LENGTH_IN_METERS_2) ^ 2
    ∧ ((PENDULUM_LENGTH_IN_METERS_1 : ℝ) + PENDULUM_LENGTH_IN_METERS_2) ^ 2 = 4
    ∧ |(trajectory_point Real.sin Real.cos y).1| ≤ PENDULUM_LENGTH_IN_METERS_1
    ∧ |(trajectory_point Real.sin Real.cos y).2.1| ≤ PENDULUM_LENGTH_IN_METERS_1 := by
  have h1 : (PENDULUM_LENGTH_IN_METERS_1 : ℝ) = 1 := by
    unfold PENDULUM_LENGTH_IN_METERS_1
    norm_num
  have h2 : (PENDULUM_LENGTH_IN_METERS_2 : ℝ) = 1 := by
    unfold PENDULUM_LENGTH_IN_METERS_2
    norm_num
  have ha := Real.sin_sq_add_cos_sq (y 0)
  have hb := Real.sin_sq_add_cos_sq (y 2)
  simp only [trajectory_point, h1, h2]
  refine ⟨?_, by norm_num, ?_, ?_⟩
  · nlinarith [sq_nonneg (Real.sin (y 0) - Real.sin (y 2)),
      sq_nonneg (Real.cos (y 0) - Real.cos (y 2))]
  · rw [one_mul]
    exact Real.abs_sin_le_one (y 0)
  · rw [neg_one_mul, abs_neg]
    exact Real.abs_cos_le_one (y 0)

/-- C20: `main` returns status `1` and prints no trajectory point exactly when the number of
command-line parameters `argc - 1` differs from `5`; with exactly `5` parameters it returns
status `0` after printing the trajectory: for its step count `N`, `max(N, 0)` lines, the
`k`-th of them the trajectory point of the state that `k` calls of `solve_motion_equations`
produce from the initial state in radians. -/
theorem main_status (fdiv : ℝ → ℝ → ℝ) (overflow : ℝ → Int) (pi : ℝ)
    (stack : Int → SolveLocals ℝ) (next0 : Fin 4 → ℝ) (argc : Int) (T TH1 TH2 W1 W2 : ℝ)
    (locals : SolveLocals ℝ) (next : Fin 4 → ℝ) :
    (((main Real.sin Real.cos fdiv overflow pi stack next0 argc T TH1 TH2 W1 W2).1 = 1
        ∧ ∀ p, OutputLine.point p
            ∉ (main Real.sin Real.cos fdiv overflow pi stack next0 argc T TH1 TH2 W1 W2).2)
      ↔ argc - 1 ≠ 5)
    ∧ (argc - 1 = 5 →
        main Real.sin Real.cos fdiv overflow pi stack next0 argc T TH1 TH2 W1 W2
          = (0, (List.range (steps_number fdiv overflow T).toNat).map
              (fun k => OutputLine.point (trajectory_point Real.sin Real.cos
                ((solve_motion_equations_result Real.sin Real.cos locals next)^[k + 1]
                  ![TH1 * pi / 180, W1 * pi / 180, TH2 * pi / 180, W2 * pi / 180]))))) := by
  have e180 : (180.0 : ℝ) = 180 := by norm_num
  have hrun : argc - 1 = 5 →
      main Real.sin Real.cos fdiv overflow pi stack next0 argc T TH1 TH2 W1 W2
        = (0, (List.range (steps_number fdiv overflow T).toNat).map
            (fun k => OutputLine.point (trajectory_point Real.sin Real.cos
              ((solve_motion_equations_result Real.sin Real.cos locals next)^[k + 1]
                ![TH1 * pi / 180, W1 * pi / 180, TH2 * pi / 180, W2 * pi / 180])))) := by
    intro h
    have h5 : ¬ (5 ≠ argc - 1) := by omega
    simp only [main, if_neg h5, e180]
    rw [(main_loop_eq stack (steps_number fdiv overflow T) locals next
      (steps_number fdiv overflow T - 0).toNat 0 _ rfl).1]
    simp
  by_cases h : argc - 1 = 5
  · refine ⟨⟨fun hm => ?_, fun hne => absurd h hne⟩, hrun⟩
    have h1 := hm.1
    rw [hrun h] at h1
    exact absurd (show (0 : Int) = 1 from h1) (by decide)
  · have h5 : 5 ≠ argc - 1 := by omega
    refine ⟨⟨fun _ => h, fun _ => ?_⟩, fun h' => absurd h' h⟩
    simp [main, h5]

/-- Witness of C20 with six arguments (`argc = 6`), the exact division and the duration
`0.12`. -/
theorem main_status_witness :
    (6 : Int) - 1 = 5
    ∧ main Real.sin Real.cos (fun a b => a / b) (fun _ => 0) Real.pi
        (fun _ => ⟨0, 0, 0, 0, 0, 0, 0⟩) 0 6 0.12 30 30 0 0
      = (0, (List.range (steps_number (fun a b : ℝ => a / b) (fun _ => 0) 0.12).toNat).map
          (fun k => OutputLine.point (trajectory_point Real.sin Real.cos
            ((solve_motion_equations_result Real.sin Real.cos ⟨0, 0, 0, 0, 0, 0, 0⟩ 0)^[k + 1]
              ![30 * Real.pi / 180, 0 * Real.pi / 180, 30 * Real.pi / 180,
                0 * Real.pi / 180])))) :=
  ⟨by decide,
    (main_status (fun a b => a / b) (fun _ => 0) Real.pi (fun _ => ⟨0, 0, 0, 0, 0, 0, 0⟩) 0 6
      0.12 30 30 0 0 ⟨0, 0, 0, 0, 0, 0, 0⟩ 0).2 (by decide)⟩

end ReachTheorems

end Pendulum
